import Mathlib

/-!
Shallow embedding of the kids-code-studio sandbox/runtime core:
the Web Worker RPC bridge (`src/lib/sandbox.ts`), the simulation
runtime (`simulationRuntime.ts`), and the Blockly code generator
(`src/lib/blocklyCodegen.ts`).  JavaScript numbers are modelled as
rationals, promises as explicit first-settlement-wins outcome maps,
and the worker / host message traffic as a tagged message type.
-/

namespace Studio

/-- JSON-serializable values crossing the worker boundary.  The only
structured object the bridge ever builds is the `{ error: string }`
capability-failure value, modelled by its own constructor. -/
inductive JSValue where
  | num (q : ℚ)
  | str (s : String)
  | bool (b : Bool)
  | null
  | errObj (msg : String)
deriving DecidableEq, Repr

/-- The `SimObject` interface from `types/runtime.ts`: typed optional fields plus an
open extension bag for script-set ad-hoc properties. -/
structure SimObject where
  id : String
  type : String
  x : ℚ
  y : ℚ
  width : Option ℚ := none
  height : Option ℚ := none
  radius : Option ℚ := none
  color : Option String := none
  opacity : Option ℚ := none
  mass : Option ℚ := none
  vx : Option ℚ := none
  vy : Option ℚ := none
  gravity : Option ℚ := none
  text : Option String := none
  extra : List (String × JSValue) := []
deriving DecidableEq, Repr

/-- The `updatePhysics` gravity guard from `simulationRuntime.ts`
(`(obj.gravity === undefined || obj.gravity > 0) && obj.mass !== undefined`). -/
def SimObject.gravityOn (o : SimObject) : Bool :=
  (match o.gravity with
   | none => true
   | some g => decide (0 < g)) && o.mass.isSome

/-- One physics step for a single object, from
`SimulationRuntime.updatePhysics`: gravity integrates `vy` then `y`
(`obj.vy = (obj.vy || 0) + GRAVITY * deltaTime; obj.y += obj.vy * deltaTime`),
and `x` always integrates `vx` (`obj.x += (obj.vx || 0) * deltaTime`). -/
def updatePhysicsObj (dt : ℚ) (o : SimObject) : SimObject :=
  let o1 :=
    if o.gravityOn then
      let vy' := o.vy.getD 0 + (49/5) * dt
      { o with vy := some vy', y := o.y + vy' * dt }
    else o
  { o1 with x := o1.x + o1.vx.getD 0 * dt }

/-- The per-tick physics pass over the whole object table
(`for (const obj of this.context.objects.values())`). -/
def updatePhysics (dt : ℚ) (objs : List (String × SimObject)) :
    List (String × SimObject) :=
  objs.map (fun p => (p.1, updatePhysicsObj dt p.2))

/-- The `circle1` object of the end-to-end scenario: mass 1, gravity
undefined, `y = 50`, `vy = 0`. -/
def circle1 : SimObject :=
  { id := "circle1", type := "circle", x := 0, y := 50,
    mass := some 1, vy := some 0, vx := some 0 }

/-! ## The Sandbox bridge (`src/lib/sandbox.ts`)

Messages carry JSON payloads; a promise settles at most once (the
first `resolve`/`reject` wins, later calls are ignored), which we model
with an explicit outcome map keyed by request id. -/

/-- The messages of the bridge protocol (both directions). -/
inductive Msg where
  | result (id : ℕ) (v : JSValue)
  | error (id : ℕ) (e : String)
  | api (id : ℕ) (name : String) (args : List JSValue)
  | ready
  | apiResponse (id : ℕ) (v : JSValue)
  | runMsg (name : String) (args : List JSValue) (requestId : ℕ)
deriving DecidableEq, Repr

/-- How a `run()` promise eventually settled. -/
inductive Outcome where
  | resolved (v : JSValue)
  | rejected (msg : String)
deriving DecidableEq, Repr

/-- Host-side `Sandbox` state: whether `this.worker` is non-null, the
ids with a live `pending` map entry, the settlement of every promise
ever created by `run()` (`none` = still pending), and `idCounter`. -/
structure BridgeState where
  workerAlive : Bool
  pending : List ℕ
  outcomes : List (ℕ × Outcome)
  idCounter : ℕ
deriving DecidableEq, Repr

/-- The settlement, if any, of the promise for request `id`. -/
def BridgeState.outcome (s : BridgeState) (id : ℕ) : Option Outcome :=
  s.outcomes.lookup id

/-- Settle the promise of request `id`: a no-op if it already settled
(JavaScript promises keep their first settlement). -/
def settleSt (s : BridgeState) (id : ℕ) (o : Outcome) : BridgeState :=
  if (s.outcome id).isSome then s
  else { s with outcomes := (id, o) :: s.outcomes }

/-- Model of `Sandbox.handleMessage`: look up the pending entry by `msg.id`;
absent id is ignored; `result` resolves and `error` rejects the entry,
which is then deleted.  `api` messages return early, and `ready` has no
id so it never matches an entry. -/
def handleMessage (s : BridgeState) (m : Msg) : BridgeState :=
  match m with
  | .result id v =>
      if id ∈ s.pending then
        let s1 := settleSt s id (.resolved v)
        { s1 with pending := s1.pending.filter (· ≠ id) }
      else s
  | .error id e =>
      if id ∈ s.pending then
        let s1 := settleSt s id (.rejected e)
        { s1 with pending := s1.pending.filter (· ≠ id) }
      else s
  | _ => s

/-- Model of `Sandbox.terminate`: null out the worker and reject every pending
entry with `'Sandbox terminated'`, clearing the pending map. -/
def terminate (s : BridgeState) : BridgeState :=
  let s1 := s.pending.foldl (fun st id => settleSt st id (.rejected "Sandbox terminated"))
    { s with workerAlive := false }
  { s1 with pending := [] }

/-- Model of `Sandbox.run`: with no worker the `async` method throws
`'worker not ready'` (so the caller's promise rejects with it);
otherwise it allocates `reqId = idCounter++`, registers a pending entry
with a watchdog timer, and posts a `run` message. -/
def runCall (s : BridgeState) (name : String) (args : List JSValue) :
    BridgeState × Except String (ℕ × Msg) :=
  if s.workerAlive then
    let reqId := s.idCounter
    ({ s with idCounter := s.idCounter + 1, pending := s.pending ++ [reqId] },
     .ok (reqId, .runMsg name args reqId))
  else (s, .error "worker not ready")

/-- The watchdog timer callback of `Sandbox.run`: first `terminate()`
(which rejects every pending promise, including this request's own),
then `reject(new Error('Sandbox run timeout'))` — which by then can no
longer settle the already-rejected promise — then delete the entry. -/
def watchdogFire (s : BridgeState) (reqId : ℕ) : BridgeState :=
  let s1 := terminate s
  let s2 := settleSt s1 reqId (.rejected "Sandbox run timeout")
  { s2 with pending := s2.pending.filter (· ≠ reqId) }

/-! ## Worker side (`src/lib/sandboxWorker.ts`) -/

/-- The observable behaviour of one compiled handler: the value its
`async` call eventually returns, or the error it throws. -/
abbrev WHandler := Except String JSValue

/-- Worker `init` handling: each source string is compiled with
`new Function`; a compile failure installs a stub `async` function
that rethrows the compile error, so every loaded key maps to a
function.  `compile` abstracts `new Function`'s outcome. -/
def workerInit (src : List (String × String))
    (compile : String → Except String WHandler) : List (String × WHandler) :=
  src.map (fun p => (p.1,
    match compile p.2 with
    | .ok f => f
    | .error e => .error e))

/-- Worker `run` dispatch: `typeof handlers[m.name] === 'function'`
guards the branch, so an unknown name produces no message at all;
otherwise the handler's result posts `result` and its throw posts
`error`, both tagged with `m.requestId`. -/
def workerDispatchRun (handlers : List (String × WHandler))
    (name : String) (reqId : ℕ) : Option Msg :=
  match handlers.lookup name with
  | none => none
  | some (.ok v) => some (.result reqId v)
  | some (.error e) => some (.error reqId e)

/-- Model of `mainApiHandler` (`SimulationRuntime.loadScriptInSandbox`): the
whole dispatch body sits in a `try`/`catch` whose `catch` returns
`{ error: String(err) }`, so the returned promise always resolves with
a value.  `inner` abstracts the outcome of the dispatched capability. -/
def mainApiHandler (inner : Except String JSValue) : Except String JSValue :=
  .ok (match inner with
       | .ok v => v
       | .error e => .errObj e)

/-- The `api` wiring installed by `Sandbox.loadHandlers`: the
dispatcher's resolution is posted back as `apiResponse`, and a
rejection is caught and posted as `apiResponse` whose result is
`{ error: String(err) }` — never thrown into the worker. -/
def hostApiReply (id : ℕ) (res : Except String JSValue) : Msg :=
  match res with
  | .ok v => .apiResponse id v
  | .error e => .apiResponse id (.errObj e)

/-- Worker `apiResponse` handling: the pending callback for `m.id` is
the suspended handler's continuation; it is always *resolved* with
`m.result` (there is no reject path), then removed. -/
def workerHandleApiResponse {α : Type} (p : List (ℕ × (JSValue → α)))
    (id : ℕ) (v : JSValue) : Option α × List (ℕ × (JSValue → α)) :=
  match p.lookup id with
  | some cb => (some (cb v), p.filter (fun q => q.1 ≠ id))
  | none => (none, p)

/-! ## Simulation runtime (`simulationRuntime.ts`) -/

/-- The `CompiledScript` interface: the four optional handler slots, generic in the
handler representation. -/
structure CompiledScript (α : Type) where
  onStart : Option α := none
  onTick : Option α := none
  onClick : Option α := none
  onCollision : Option α := none
deriving DecidableEq, Repr

/-- Model of `SimulationRuntime.loadScript`: each slot is overwritten only when
the incoming script has a function there (`typeof script.k === 'function'`);
otherwise the previously bound handler stays. -/
def loadScript {α : Type} (cur incoming : CompiledScript α) : CompiledScript α :=
  { onStart := match incoming.onStart with
      | some f => some f
      | none => cur.onStart
    onTick := match incoming.onTick with
      | some f => some f
      | none => cur.onTick
    onClick := match incoming.onClick with
      | some f => some f
      | none => cur.onClick
    onCollision := match incoming.onCollision with
      | some f => some f
      | none => cur.onCollision }

/-- Insert-or-replace in an association list, keeping the original
position of an existing key (JavaScript object assignment order). -/
def upsertKV {α : Type} (l : List (String × α)) (k : String) (v : α) :
    List (String × α) :=
  match l with
  | [] => [(k, v)]
  | p :: rest => if p.1 = k then (k, v) :: rest else p :: upsertKV rest k v

/-- Assignment `obj[prop] = value` on a `SimObject`: the declared fields when the
value has the declared shape, the open extension bag otherwise. -/
def setField (o : SimObject) (prop : String) (v : JSValue) : SimObject :=
  match prop, v with
  | "x", .num q => { o with x := q }
  | "y", .num q => { o with y := q }
  | "vx", .num q => { o with vx := some q }
  | "vy", .num q => { o with vy := some q }
  | "mass", .num q => { o with mass := some q }
  | "gravity", .num q => { o with gravity := some q }
  | "width", .num q => { o with width := some q }
  | "height", .num q => { o with height := some q }
  | "radius", .num q => { o with radius := some q }
  | "opacity", .num q => { o with opacity := some q }
  | "color", .str s => { o with color := some s }
  | "text", .str s => { o with text := some s }
  | _, _ => { o with extra := upsertKV o.extra prop v }

/-- Model of `SimulationRuntime.setProperty`: `objects.get(id)` then mutate the
found object; when the id is absent nothing happens. -/
def setProperty (objs : List (String × SimObject)) (id prop : String)
    (v : JSValue) : List (String × SimObject) :=
  match objs.lookup id with
  | none => objs
  | some _ => objs.map (fun p => if p.1 = id then (p.1, setField p.2 prop v) else p)

/-- One registered event listener: an identity token and the behaviour
of calling it on an argument list (returns or throws). -/
structure EListener where
  lid : ℕ
  behaviour : List JSValue → Except String Unit

/-- Model of `SimulationRuntime.emit`'s listener loop (`handlers.forEach` with a
per-listener `try`/`catch`): returns the invocations performed, in
order, and the `console.error` log entries for listeners that threw. -/
def emitRun (args : List JSValue) : List EListener → List ℕ × List String
  | [] => ([], [])
  | h :: t =>
      let rest := emitRun args t
      match h.behaviour args with
      | .ok _ => (h.lid :: rest.1, rest.2)
      | .error e => (h.lid :: rest.1, e :: rest.2)

/-- The call `emit(event, ...args)`: run every listener registered for `event`
(`this.context.events.get(event) || []`). -/
def emit (events : List (String × List EListener)) (event : String)
    (args : List JSValue) : List ℕ × List String :=
  emitRun args ((events.lookup event).getD [])

/-- The runtime's `RuntimeContext` plus scheduler fields, as far as
`reset`/`stop` touch them.  Listener registries and handler bindings
are identified by tokens so the state has decidable equality. -/
structure RuntimeState where
  objects : List (String × SimObject)
  time : ℚ
  deltaTime : ℚ
  eventKeys : List (String × List ℕ)
  varStore : List (String × JSValue)
  script : CompiledScript ℕ
  sandboxAttached : Bool
  running : Bool
  animationFrameId : Option ℕ
deriving DecidableEq, Repr

/-- Model of `SimulationRuntime.stop`: clear the running flag and cancel the
scheduled frame. -/
def stopRt (s : RuntimeState) : RuntimeState :=
  { s with running := false, animationFrameId := none }

/-- Model of `SimulationRuntime.reset`: `stop()`, zero the clock, clear the
variable store, and zero each object's `vx`/`vy` in place — the object
table itself, the listener registry and the script bindings stay. -/
def resetRt (s : RuntimeState) : RuntimeState :=
  let s1 := stopRt s
  { s1 with
    time := 0
    varStore := []
    objects := s1.objects.map (fun p => (p.1, { p.2 with vx := some 0, vy := some 0 })) }

/-! ## Blockly code generation (`src/lib/blocklyCodegen.ts`) -/

/-- One top-level block of the workspace: its `type` tag and the
generator's `statementToCode` output (`none` models a falsy result,
which `|| ''` turns into the empty string). -/
structure Block where
  btype : String
  stmts : Option String
deriving DecidableEq, Repr

/-- One iteration of `extractEventHandlers`' block loop:
`sim_on_start` assigns `handlers['onStart']`, `sim_on_update` assigns
`handlers['onTick']`, every other type is skipped. -/
def extractStep (hs : List (String × String)) (b : Block) :
    List (String × String) :=
  if b.btype = "sim_on_start" then upsertKV hs "onStart" (b.stmts.getD "")
  else if b.btype = "sim_on_update" then upsertKV hs "onTick" (b.stmts.getD "")
  else hs

/-- The block loop over the whole workspace. -/
def extractGo (blocks : List Block) (hs : List (String × String)) :
    List (String × String) :=
  match blocks with
  | [] => hs
  | b :: rest => extractGo rest (extractStep hs b)

/-- Model of `extractEventHandlers`: start from the empty mapping and fold the
loop over `workspace.getAllBlocks(false)`. -/
def extractEventHandlers (blocks : List Block) : List (String × String) :=
  extractGo blocks []

/-- The message the worker posts when a dispatched handler finishes:
`result` with the returned value, `error` with the thrown one. -/
def respondMsg (reqId : ℕ) (r : WHandler) : Msg :=
  match r with
  | .ok v => .result reqId v
  | .error e => .error reqId e

/-- The settlement `handleMessage` gives the matching caller:
`resolve(msg.result)` or `reject(new Error(msg.error))`. -/
def settledAs (r : WHandler) : Outcome :=
  match r with
  | .ok v => .resolved v
  | .error e => .rejected e

/-- The correlation id carried by a message (`msg.id`, or the
`requestId` of a `run` message); `ready` carries none. -/
def msgId : Msg → Option ℕ
  | .result id _ => some id
  | .error id _ => some id
  | .api id _ _ => some id
  | .apiResponse id _ => some id
  | .runMsg _ _ rid => some rid
  | .ready => none

/-- The `apiResponse` payload a capability outcome produces: the value
itself on success, the structured `{ error: String(err) }` object on
failure. -/
def capPayload (inner : Except String JSValue) : JSValue :=
  match inner with
  | .ok v => v
  | .error e => .errObj e


/-! ## Bridge lemmas -/

lemma settleSt_workerAlive (s : BridgeState) (i : ℕ) (o : Outcome) :
    (settleSt s i o).workerAlive = s.workerAlive := by
  unfold settleSt; split <;> rfl

lemma settleSt_pending (s : BridgeState) (i : ℕ) (o : Outcome) :
    (settleSt s i o).pending = s.pending := by
  unfold settleSt; split <;> rfl

lemma settleSt_outcome_of_some {s : BridgeState} {id : ℕ} {o : Outcome}
    (i : ℕ) (x : Outcome) (h : s.outcome id = some o) :
    (settleSt s i x).outcome id = some o := by
  unfold settleSt
  by_cases hg : (s.outcome i).isSome
  · simp [hg, h]
  · have hne : i ≠ id := by
      intro he
      subst he
      rw [h] at hg
      simp at hg
    have hbeq : (id == i) = false := beq_false_of_ne (Ne.symm hne)
    simp only [hg, if_false, Bool.false_eq_true]
    simp only [BridgeState.outcome] at h ⊢
    simpa [List.lookup, hbeq] using h

lemma settleSt_outcome_self {s : BridgeState} {id : ℕ} (o : Outcome)
    (h : s.outcome id = none) : (settleSt s id o).outcome id = some o := by
  unfold settleSt
  simp only [h, Option.isSome_none, Bool.false_eq_true, if_false]
  simp [BridgeState.outcome, List.lookup]

lemma settleSt_outcome_ne {s : BridgeState} {i id : ℕ} (x : Outcome)
    (hne : i ≠ id) : (settleSt s i x).outcome id = s.outcome id := by
  unfold settleSt
  split
  · rfl
  · have hbeq : (id == i) = false := beq_false_of_ne (Ne.symm hne)
    simp [BridgeState.outcome, List.lookup, hbeq]

lemma termFold_outcome_of_some {id : ℕ} {o : Outcome} :
    ∀ (l : List ℕ) (s : BridgeState), s.outcome id = some o →
    (l.foldl (fun st i => settleSt st i (.rejected "Sandbox terminated")) s).outcome id
      = some o := by
  intro l
  induction l with
  | nil => intro s h; exact h
  | cons a t ih =>
      intro s h
      exact ih _ (settleSt_outcome_of_some a _ h)

lemma termFold_outcome_mem {id : ℕ} :
    ∀ (l : List ℕ) (s : BridgeState), id ∈ l → s.outcome id = none →
    (l.foldl (fun st i => settleSt st i (.rejected "Sandbox terminated")) s).outcome id
      = some (.rejected "Sandbox terminated") := by
  intro l
  induction l with
  | nil => intro s h; exact absurd h (List.not_mem_nil id)
  | cons a t ih =>
      intro s hmem hnone
      by_cases ha : a = id
      · subst ha
        exact termFold_outcome_of_some t _ (settleSt_outcome_self _ hnone)
      · have hmem' : id ∈ t := by
          rcases List.mem_cons.mp hmem with h | h
          · exact absurd h.symm ha
          · exact h
        exact ih _ hmem' (by rw [settleSt_outcome_ne _ ha]; exact hnone)

lemma termFold_workerAlive :
    ∀ (l : List ℕ) (s : BridgeState),
    (l.foldl (fun st i => settleSt st i (.rejected "Sandbox terminated")) s).workerAlive
      = s.workerAlive := by
  intro l
  induction l with
  | nil => intro s; rfl
  | cons a t ih => intro s; rw [List.foldl_cons, ih, settleSt_workerAlive]

lemma terminate_workerAlive (s : BridgeState) : (terminate s).workerAlive = false := by
  unfold terminate
  simp only
  rw [termFold_workerAlive]

lemma terminate_pending (s : BridgeState) : (terminate s).pending = [] := rfl

lemma terminate_outcome_mem {s : BridgeState} {id : ℕ}
    (hmem : id ∈ s.pending) (hnone : s.outcome id = none) :
    (terminate s).outcome id = some (.rejected "Sandbox terminated") := by
  unfold terminate
  simp only
  exact termFold_outcome_mem s.pending _ hmem hnone

lemma terminate_outcome_of_some {s : BridgeState} {id : ℕ} {o : Outcome}
    (h : s.outcome id = some o) : (terminate s).outcome id = some o := by
  unfold terminate
  simp only
  exact termFold_outcome_of_some s.pending _ h

lemma watchdogFire_outcome_mem {s : BridgeState} {reqId j : ℕ}
    (hj : j ∈ s.pending) (hnone : s.outcome j = none) :
    (watchdogFire s reqId).outcome j = some (.rejected "Sandbox terminated") := by
  unfold watchdogFire
  simp only
  exact settleSt_outcome_of_some _ _ (terminate_outcome_mem hj hnone)

lemma watchdogFire_workerAlive (s : BridgeState) (reqId : ℕ) :
    (watchdogFire s reqId).workerAlive = false := by
  unfold watchdogFire
  simp only
  rw [settleSt_workerAlive, terminate_workerAlive]

lemma watchdogFire_pending (s : BridgeState) (reqId : ℕ) :
    (watchdogFire s reqId).pending = [] := by
  unfold watchdogFire
  simp only
  rw [settleSt_pending, terminate_pending]
  rfl

lemma runCall_dead {s : BridgeState} (h : s.workerAlive = false)
    (name : String) (args : List JSValue) :
    (runCall s name args).2 = .error "worker not ready" := by
  unfold runCall
  rw [h]
  rfl

/-- C1 counterexample: in a bridge with pending requests 1 and 2, the
watchdog for request 1 fires.  Because the timer callback calls
`terminate()` *before* its own `reject`, request 1's promise is already
rejected with `'Sandbox terminated'` when the `'Sandbox run timeout'`
rejection runs, so the timed-out call does not reject with `RunTimeout`;
and a subsequent `run()` rejects with `'worker not ready'`, not with
the `Terminated` error. -/
theorem watchdog_rejects_with_terminated_not_runtimeout :
    (watchdogFire ⟨true, [1, 2], [], 3⟩ 1).outcome 1
        = some (.rejected "Sandbox terminated") ∧
    (watchdogFire ⟨true, [1, 2], [], 3⟩ 1).outcome 1
        ≠ some (.rejected "Sandbox run timeout") ∧
    (runCall (watchdogFire ⟨true, [1, 2], [], 3⟩ 1) "onTick" []).2
        = .error "worker not ready" ∧
    (runCall (watchdogFire ⟨true, [1, 2], [], 3⟩ 1) "onTick" []).2
        ≠ .error "Sandbox terminated" := by
  refine ⟨by decide, by decide, rfl, ?_⟩
  intro h
  rw [show (runCall (watchdogFire ⟨true, [1, 2], [], 3⟩ 1) "onTick" []).2
        = Except.error (ε := String) "worker not ready" from rfl] at h
  exact absurd (Except.error.inj h) (by decide)

/-- C1 (amended): when the watchdog fires before the isolated context
responds, the entire bridge is torn down — the worker is disposed, the
pending map is emptied, every pending call *including the timed-out
one* is rejected with `Terminated` (`'Sandbox terminated'`, because
`terminate()` runs before the `RunTimeout` rejection and a promise
keeps its first settlement), and any subsequent `run()` on the same
instance rejects with `'worker not ready'`. -/
theorem watchdog_teardown (s : BridgeState) (reqId : ℕ)
    (hmem : reqId ∈ s.pending) (hnone : s.outcome reqId = none) :
    (watchdogFire s reqId).outcome reqId = some (.rejected "Sandbox terminated") ∧
    (∀ j ∈ s.pending, s.outcome j = none →
      (watchdogFire s reqId).outcome j = some (.rejected "Sandbox terminated")) ∧
    (watchdogFire s reqId).workerAlive = false ∧
    (watchdogFire s reqId).pending = [] ∧
    ∀ name args,
      (runCall (watchdogFire s reqId) name args).2 = .error "worker not ready" := by
  refine ⟨watchdogFire_outcome_mem hmem hnone,
          fun j hj hjn => watchdogFire_outcome_mem hj hjn,
          watchdogFire_workerAlive s reqId,
          watchdogFire_pending s reqId,
          fun name args => runCall_dead (watchdogFire_workerAlive s reqId) name args⟩

/-- Witness for `watchdog_teardown` at the concrete bridge state with
pending requests 5 and 9, request 5 timing out. -/
theorem watchdog_teardown_witness :
    (watchdogFire ⟨true, [5, 9], [], 10⟩ 5).outcome 9
        = some (.rejected "Sandbox terminated") ∧
    (watchdogFire ⟨true, [5, 9], [], 10⟩ 5).workerAlive = false :=
  ⟨(watchdog_teardown ⟨true, [5, 9], [], 10⟩ 5 (by decide) (by decide)).2.1
      9 (by decide) (by decide),
   (watchdog_teardown ⟨true, [5, 9], [], 10⟩ 5 (by decide) (by decide)).2.2.1⟩

/-! ## Request/response correlation lemmas -/

lemma msgId_respond (reqId : ℕ) (r : WHandler) :
    msgId (respondMsg reqId r) = some reqId := by
  cases r <;> rfl

lemma handle_respond_self {s : BridgeState} {id : ℕ} (r : WHandler)
    (hmem : id ∈ s.pending) (hnone : s.outcome id = none) :
    (handleMessage s (respondMsg id r)).outcome id = some (settledAs r) := by
  cases r with
  | ok v =>
      simp only [respondMsg, handleMessage, if_pos hmem]
      exact settleSt_outcome_self _ hnone
  | error e =>
      simp only [respondMsg, handleMessage, if_pos hmem]
      exact settleSt_outcome_self _ hnone

lemma handle_outcome_ne {s : BridgeState} {m : Msg} {k : ℕ}
    (h : ∀ id, msgId m = some id → id ≠ k) :
    (handleMessage s m).outcome k = s.outcome k := by
  cases m with
  | result id v =>
      by_cases hp : id ∈ s.pending
      · simp only [handleMessage, if_pos hp]
        exact settleSt_outcome_ne _ (h id rfl)
      · simp only [handleMessage, if_neg hp]
  | error id e =>
      by_cases hp : id ∈ s.pending
      · simp only [handleMessage, if_pos hp]
        exact settleSt_outcome_ne _ (h id rfl)
      · simp only [handleMessage, if_neg hp]
  | api id name args => rfl
  | ready => rfl
  | apiResponse id v => rfl
  | runMsg name args rid => rfl

lemma handle_pending_ne {s : BridgeState} {id k : ℕ} (hk : k ≠ id) (r : WHandler) :
    k ∈ (handleMessage s (respondMsg id r)).pending ↔ k ∈ s.pending := by
  cases r with
  | ok v =>
      by_cases hp : id ∈ s.pending
      · simp only [respondMsg, handleMessage, if_pos hp]
        show k ∈ (settleSt s id (.resolved v)).pending.filter (· ≠ id) ↔ _
        rw [settleSt_pending]
        simp [List.mem_filter, hk]
      · simp [respondMsg, handleMessage, if_neg hp]
  | error e =>
      by_cases hp : id ∈ s.pending
      · simp only [respondMsg, handleMessage, if_pos hp]
        show k ∈ (settleSt s id (.rejected e)).pending.filter (· ≠ id) ↔ _
        rw [settleSt_pending]
        simp [List.mem_filter, hk]
      · simp [respondMsg, handleMessage, if_neg hp]

/-- C2: with two concurrent `run()` calls holding distinct request ids,
delivering the two completion messages in either order settles each
caller with exactly the response carrying its own id — matching is by
id, not by send order. -/
theorem response_correlation (s : BridgeState) (i j : ℕ) (ri rj : WHandler)
    (hij : i ≠ j) (hi : i ∈ s.pending) (hj : j ∈ s.pending)
    (hni : s.outcome i = none) (hnj : s.outcome j = none) :
    ((handleMessage (handleMessage s (respondMsg j rj)) (respondMsg i ri)).outcome i
        = some (settledAs ri) ∧
     (handleMessage (handleMessage s (respondMsg j rj)) (respondMsg i ri)).outcome j
        = some (settledAs rj)) ∧
    ((handleMessage (handleMessage s (respondMsg i ri)) (respondMsg j rj)).outcome i
        = some (settledAs ri) ∧
     (handleMessage (handleMessage s (respondMsg i ri)) (respondMsg j rj)).outcome j
        = some (settledAs rj)) := by
  have hne_ij : ∀ id, msgId (respondMsg i ri) = some id → id ≠ j := by
    intro id hid
    rw [msgId_respond] at hid
    cases hid
    exact hij
  have hne_ji : ∀ id, msgId (respondMsg j rj) = some id → id ≠ i := by
    intro id hid
    rw [msgId_respond] at hid
    cases hid
    exact fun he => hij he.symm
  constructor
  · constructor
    · have hmem : i ∈ (handleMessage s (respondMsg j rj)).pending :=
        (handle_pending_ne hij rj).mpr hi
      have hnone : (handleMessage s (respondMsg j rj)).outcome i = none := by
        rw [handle_outcome_ne hne_ji]; exact hni
      exact handle_respond_self ri hmem hnone
    · rw [handle_outcome_ne hne_ij]
      exact handle_respond_self rj hj hnj
  · constructor
    · rw [handle_outcome_ne hne_ji]
      exact handle_respond_self ri hi hni
    · have hmem : j ∈ (handleMessage s (respondMsg i ri)).pending :=
        (handle_pending_ne (fun he => hij he.symm) ri).mpr hj
      have hnone : (handleMessage s (respondMsg i ri)).outcome j = none := by
        rw [handle_outcome_ne hne_ij]; exact hnj
      exact handle_respond_self rj hmem hnone

/-- Witness for `response_correlation`: requests 1 and 2 pending, the
response for 2 (a throw) arriving before the response for 1 (a value);
each settles its own caller. -/
theorem response_correlation_witness :
    (handleMessage (handleMessage ⟨true, [1, 2], [], 3⟩
        (respondMsg 2 (.error "boom"))) (respondMsg 1 (.ok (.num 7)))).outcome 1
      = some (.resolved (.num 7)) ∧
    (handleMessage (handleMessage ⟨true, [1, 2], [], 3⟩
        (respondMsg 2 (.error "boom"))) (respondMsg 1 (.ok (.num 7)))).outcome 2
      = some (.rejected "boom") :=
  ⟨(response_correlation ⟨true, [1, 2], [], 3⟩ 1 2 (.ok (.num 7)) (.error "boom")
      (by decide) (by decide) (by decide) (by decide) (by decide)).1.1,
   (response_correlation ⟨true, [1, 2], [], 3⟩ 1 2 (.ok (.num 7)) (.error "boom")
      (by decide) (by decide) (by decide) (by decide) (by decide)).1.2⟩

/-! ## Physics -/

/-- C3: one physics tick.  For an object with defined mass and
undefined-or-positive gravity scale, `vy' = vy + 9.8·dt` and
`y' = y + vy'·dt`; for every object, whatever its gravity,
`x' = x + vx·dt`; the table pass applies this to each object; and in
the end-to-end scenario (`circle1`: mass 1, gravity undefined, `y = 50`,
`vy = 0`, `dt = 0.1`) the tick yields `vy = 0.98` and `y = 50.098`. -/
theorem physics_tick :
    (∀ (dt : ℚ) (o : SimObject) (vy0 : ℚ),
      o.mass.isSome = true →
      (o.gravity = none ∨ ∃ g, o.gravity = some g ∧ 0 < g) →
      o.vy = some vy0 →
      (updatePhysicsObj dt o).vy = some (vy0 + (49/5) * dt) ∧
      (updatePhysicsObj dt o).y = o.y + (vy0 + (49/5) * dt) * dt) ∧
    (∀ (dt : ℚ) (o : SimObject) (vx0 : ℚ),
      o.vx = some vx0 → (updatePhysicsObj dt o).x = o.x + vx0 * dt) ∧
    (∀ (dt : ℚ) (objs : List (String × SimObject)),
      updatePhysics dt objs = objs.map (fun p => (p.1, updatePhysicsObj dt p.2))) ∧
    ((updatePhysicsObj (1/10) circle1).vy = some (49/50) ∧
     (updatePhysicsObj (1/10) circle1).y = 25049/500) := by
  have hgrav : ∀ (o : SimObject), o.mass.isSome = true →
      (o.gravity = none ∨ ∃ g, o.gravity = some g ∧ 0 < g) →
      o.gravityOn = true := by
    intro o hm hg
    unfold SimObject.gravityOn
    rcases hg with hg | ⟨g, hg, hgpos⟩
    · rw [hg, hm]; rfl
    · rw [hg, hm]
      simp [hgpos]
  refine ⟨?_, ?_, fun dt objs => rfl, ?_, ?_⟩
  · intro dt o vy0 hm hg hvy
    have hon := hgrav o hm hg
    unfold updatePhysicsObj
    simp only [hon, if_true, hvy]
    constructor <;> rfl
  · intro dt o vx0 hvx
    unfold updatePhysicsObj
    by_cases hon : o.gravityOn
    · simp only [hon, if_true, hvx]
      rfl
    · simp only [hon, if_false, Bool.false_eq_true, hvx]
      rfl
  · show (updatePhysicsObj (1/10) circle1).vy = some (49/50)
    simp only [updatePhysicsObj, circle1, SimObject.gravityOn]
    norm_num
  · show (updatePhysicsObj (1/10) circle1).y = 25049/500
    simp only [updatePhysicsObj, circle1, SimObject.gravityOn]
    norm_num

/-- Witness for `physics_tick`: the gravity branch applied to `circle1`
with `dt = 0.1`. -/
theorem physics_tick_witness :
    (updatePhysicsObj (1/10) circle1).vy = some (0 + (49/5) * (1/10)) ∧
    (updatePhysicsObj (1/10) circle1).y = (50 : ℚ) + (0 + (49/5) * (1/10)) * (1/10) :=
  physics_tick.1 (1/10) circle1 0 (by decide) (Or.inl (by decide)) (by decide)

/-! ## Capability error marshalling -/

/-- C4: a capability call that fails on the host side is caught
(`mainApiHandler`'s `try`/`catch` and the `.catch` of the `api`
wiring) and marshaled back as an `apiResponse` message whose payload
is the structured `{error}` value — never thrown into the context —
and the worker resolves the suspended handler's continuation with that
payload, so the handler keeps running. -/
theorem capability_error_marshalled :
    (∀ (id : ℕ) (inner : Except String JSValue),
      hostApiReply id (mainApiHandler inner) = .apiResponse id (capPayload inner)) ∧
    (∀ (id : ℕ) (e : String),
      hostApiReply id (mainApiHandler (.error e)) = .apiResponse id (.errObj e)) ∧
    (∀ {α : Type} (p : List (ℕ × (JSValue → α))) (id : ℕ) (k : JSValue → α)
      (w : JSValue), p.lookup id = some k →
      (workerHandleApiResponse p id w).1 = some (k w)) := by
  refine ⟨?_, ?_, ?_⟩
  · intro id inner
    cases inner <;> rfl
  · intro id e
    rfl
  · intro α p id k w h
    unfold workerHandleApiResponse
    rw [h]

/-- Witness for `capability_error_marshalled`: a capability failure
`'boom'` on request 5 comes back as `apiResponse {error: 'boom'}` and
resumes the waiting continuation with that value. -/
theorem capability_error_marshalled_witness :
    hostApiReply 5 (mainApiHandler (.error "boom")) = .apiResponse 5 (.errObj "boom") ∧
    (workerHandleApiResponse [(5, fun v => v)] 5 (.errObj "boom")).1
      = some (.errObj "boom") :=
  ⟨capability_error_marshalled.2.1 5 "boom",
   capability_error_marshalled.2.2 (α := JSValue) [(5, fun v => v)] 5
     (fun v => v) (.errObj "boom") rfl⟩

/-! ## Script (re)loading -/

/-- C5 counterexample: load a script binding only `onTick`, then a new
script defining only `onStart`; the old `onTick` handler is still
bound even though the new script does not define it, so the mapping is
not replaced wholesale. -/
theorem loadScript_keeps_stale_handler :
    (loadScript (loadScript ({} : CompiledScript ℕ) ⟨none, some 7, none, none⟩)
        ⟨some 3, none, none, none⟩).onTick = some 7 ∧
    (loadScript (loadScript ({} : CompiledScript ℕ) ⟨none, some 7, none, none⟩)
        ⟨some 3, none, none, none⟩).onTick ≠ none :=
  ⟨rfl, by decide⟩

/-- C5 (amended): the `loadScript` operation merges instead of replacing wholesale —
each of the four handler slots is overwritten when the incoming script
defines a function for it and otherwise keeps the previously bound
handler, so a handler from an earlier script stays bound until a later
script redefines it. -/
theorem loadScript_merges {α : Type} (cur incoming : CompiledScript α) :
    (loadScript cur incoming).onStart
        = incoming.onStart.orElse (fun _ => cur.onStart) ∧
    (loadScript cur incoming).onTick
        = incoming.onTick.orElse (fun _ => cur.onTick) ∧
    (loadScript cur incoming).onClick
        = incoming.onClick.orElse (fun _ => cur.onClick) ∧
    (loadScript cur incoming).onCollision
        = incoming.onCollision.orElse (fun _ => cur.onCollision) := by
  refine ⟨?_, ?_, ?_, ?_⟩ <;> simp only [loadScript]
  · cases incoming.onStart <;> rfl
  · cases incoming.onTick <;> rfl
  · cases incoming.onClick <;> rfl
  · cases incoming.onCollision <;> rfl

/-! ## Event dispatch -/

/-- C6: the `emit` capability synchronously invokes every listener registered for the
event, in registration order — the invocation trace is exactly the
registered ids in order, even when some listeners throw — and the log
collects exactly the thrown errors, so a throwing listener is caught
and logged and every later listener still runs. -/
theorem emit_invokes_all_in_order (events : List (String × List EListener))
    (event : String) (args : List JSValue) :
    (emit events event args).1 = ((events.lookup event).getD []).map EListener.lid ∧
    (emit events event args).2 = ((events.lookup event).getD []).filterMap
      (fun h => match h.behaviour args with
                | .ok _ => none
                | .error e => some e) := by
  have main : ∀ ls : List EListener,
      (emitRun args ls).1 = ls.map EListener.lid ∧
      (emitRun args ls).2 = ls.filterMap
        (fun h => match h.behaviour args with
                  | .ok _ => none
                  | .error e => some e) := by
    intro ls
    induction ls with
    | nil => exact ⟨rfl, rfl⟩
    | cons h t ih =>
        cases hb : h.behaviour args with
        | ok u => simp [emitRun, hb, ih.1, ih.2]
        | error e => simp [emitRun, hb, ih.1, ih.2]
  exact main _

/-! ## Reset -/

/-- C7: the runtime `reset()` stops first (running flag cleared, scheduled frame
cancelled), zeroes the clock, clears the variable store, zeroes every
object's velocities while leaving the object table (its keys and every
non-kinematic field) intact, keeps the handler bindings and listener
registry, and is idempotent: resetting twice yields the identical
state. -/
theorem reset_spec (s : RuntimeState) :
    (resetRt s).running = false ∧
    (resetRt s).animationFrameId = none ∧
    (resetRt s).time = 0 ∧
    (resetRt s).varStore = [] ∧
    (resetRt s).objects
      = s.objects.map (fun p => (p.1, { p.2 with vx := some 0, vy := some 0 })) ∧
    (resetRt s).objects.map Prod.fst = s.objects.map Prod.fst ∧
    (resetRt s).script = s.script ∧
    (resetRt s).eventKeys = s.eventKeys ∧
    resetRt (resetRt s) = resetRt s := by
  refine ⟨rfl, rfl, rfl, rfl, rfl, ?_, rfl, rfl, ?_⟩
  · show (s.objects.map (fun p => (p.1,
        ({ p.2 with vx := some 0, vy := some 0 } : SimObject)))).map Prod.fst
      = s.objects.map Prod.fst
    rw [List.map_map]
    rfl
  · show resetRt (resetRt s) = resetRt s
    unfold resetRt stopRt
    simp only [List.map_map]
    rfl

/-! ## Best-effort property writes -/

/-- C8: calling `setProperty` with an id absent from the object table is a
silent no-op — the call neither fails nor raises, and the object table
keeps its size and contents. -/
theorem setProperty_absent_noop (objs : List (String × SimObject))
    (id prop : String) (v : JSValue) (h : objs.lookup id = none) :
    setProperty objs id prop v = objs ∧
    (setProperty objs id prop v).length = objs.length := by
  unfold setProperty
  rw [h]
  exact ⟨rfl, rfl⟩

/-- Witness for `setProperty_absent_noop`: writing `x` on the missing
id `ghost` leaves a one-object table unchanged. -/
theorem setProperty_absent_noop_witness :
    setProperty [("circle1", circle1)] "ghost" "x" (.num 3)
      = [("circle1", circle1)] :=
  (setProperty_absent_noop [("circle1", circle1)] "ghost" "x" (.num 3) rfl).1

/-! ## Code generation lemmas -/

lemma upsertKV_keys_mem {α : Type} (l : List (String × α)) (k k' : String) (v : α) :
    k' ∈ (upsertKV l k v).map Prod.fst ↔ k' ∈ l.map Prod.fst ∨ k' = k := by
  induction l with
  | nil => simp [upsertKV]
  | cons p t ih =>
      by_cases hp : p.1 = k
      · simp only [upsertKV]
        rw [if_pos hp]
        simp only [List.map_cons, List.mem_cons, hp]
        tauto
      · simp only [upsertKV]
        rw [if_neg hp]
        simp only [List.map_cons, List.mem_cons, ih]
        tauto

lemma upsertKV_keys_nodup {α : Type} (l : List (String × α)) (k : String) (v : α)
    (h : (l.map Prod.fst).Nodup) : ((upsertKV l k v).map Prod.fst).Nodup := by
  induction l with
  | nil => simp [upsertKV]
  | cons p t ih =>
      rw [List.map_cons, List.nodup_cons] at h
      by_cases hp : p.1 = k
      · simp only [upsertKV, if_pos hp, List.map_cons, List.nodup_cons]
        exact ⟨hp ▸ h.1, h.2⟩
      · simp only [upsertKV, if_neg hp, List.map_cons, List.nodup_cons]
        refine ⟨?_, ih h.2⟩
        intro hmem
        rcases (upsertKV_keys_mem t k p.1 v).mp hmem with hm | he
        · exact h.1 hm
        · exact hp he

lemma extractStep_keys_mem (hs : List (String × String)) (b : Block) (k' : String) :
    k' ∈ (extractStep hs b).map Prod.fst ↔
      k' ∈ hs.map Prod.fst ∨
      (b.btype = "sim_on_start" ∧ k' = "onStart") ∨
      (b.btype = "sim_on_update" ∧ k' = "onTick") := by
  have hsu : ("sim_on_start" : String) ≠ "sim_on_update" := by decide
  by_cases h1 : b.btype = "sim_on_start"
  · have h2 : b.btype ≠ "sim_on_update" := by rw [h1]; exact hsu
    unfold extractStep
    rw [if_pos h1, upsertKV_keys_mem]
    constructor
    · rintro (hm | he)
      · exact Or.inl hm
      · exact Or.inr (Or.inl ⟨h1, he⟩)
    · rintro (hm | ⟨_, he⟩ | ⟨hb, _⟩)
      · exact Or.inl hm
      · exact Or.inr he
      · exact absurd hb h2
  · by_cases h2 : b.btype = "sim_on_update"
    · unfold extractStep
      rw [if_neg h1, if_pos h2, upsertKV_keys_mem]
      constructor
      · rintro (hm | he)
        · exact Or.inl hm
        · exact Or.inr (Or.inr ⟨h2, he⟩)
      · rintro (hm | ⟨hb, _⟩ | ⟨_, he⟩)
        · exact Or.inl hm
        · exact absurd hb h1
        · exact Or.inr he
    · unfold extractStep
      rw [if_neg h1, if_neg h2]
      constructor
      · exact Or.inl
      · rintro (hm | ⟨hb, _⟩ | ⟨hb, _⟩)
        · exact hm
        · exact absurd hb h1
        · exact absurd hb h2

lemma extractStep_keys_nodup (hs : List (String × String)) (b : Block)
    (h : (hs.map Prod.fst).Nodup) : ((extractStep hs b).map Prod.fst).Nodup := by
  unfold extractStep
  split
  · exact upsertKV_keys_nodup hs _ _ h
  · split
    · exact upsertKV_keys_nodup hs _ _ h
    · exact h

lemma extractGo_keys_mem :
    ∀ (blocks : List Block) (hs : List (String × String)) (k' : String),
    k' ∈ (extractGo blocks hs).map Prod.fst ↔
      k' ∈ hs.map Prod.fst ∨
      (k' = "onStart" ∧ ∃ b ∈ blocks, b.btype = "sim_on_start") ∨
      (k' = "onTick" ∧ ∃ b ∈ blocks, b.btype = "sim_on_update") := by
  intro blocks
  induction blocks with
  | nil => intro hs k'; simp [extractGo]
  | cons b t ih =>
      intro hs k'
      show k' ∈ (extractGo t (extractStep hs b)).map Prod.fst ↔ _
      rw [ih, extractStep_keys_mem]
      constructor
      · rintro ((hm | ⟨hb, hk⟩ | ⟨hb, hk⟩) | ⟨hk, bb, hbb, hbt⟩ | ⟨hk, bb, hbb, hbt⟩)
        · exact Or.inl hm
        · exact Or.inr (Or.inl ⟨hk, b, List.mem_cons_self b t, hb⟩)
        · exact Or.inr (Or.inr ⟨hk, b, List.mem_cons_self b t, hb⟩)
        · exact Or.inr (Or.inl ⟨hk, bb, List.mem_cons_of_mem b hbb, hbt⟩)
        · exact Or.inr (Or.inr ⟨hk, bb, List.mem_cons_of_mem b hbb, hbt⟩)
      · rintro (hm | ⟨hk, bb, hbb, hbt⟩ | ⟨hk, bb, hbb, hbt⟩)
        · exact Or.inl (Or.inl hm)
        · rcases List.mem_cons.mp hbb with he | ht
          · exact Or.inl (Or.inr (Or.inl ⟨he ▸ hbt, hk⟩))
          · exact Or.inr (Or.inl ⟨hk, bb, ht, hbt⟩)
        · rcases List.mem_cons.mp hbb with he | ht
          · exact Or.inl (Or.inr (Or.inr ⟨he ▸ hbt, hk⟩))
          · exact Or.inr (Or.inr ⟨hk, bb, ht, hbt⟩)

lemma extractGo_keys_nodup :
    ∀ (blocks : List Block) (hs : List (String × String)),
    (hs.map Prod.fst).Nodup → ((extractGo blocks hs).map Prod.fst).Nodup := by
  intro blocks
  induction blocks with
  | nil => intro hs h; exact h
  | cons b t ih => intro hs h; exact ih _ (extractStep_keys_nodup hs b h)

lemma extractGo_unrecognized :
    ∀ (blocks : List Block) (hs : List (String × String)),
    (∀ b ∈ blocks, b.btype ≠ "sim_on_start" ∧ b.btype ≠ "sim_on_update") →
    extractGo blocks hs = hs := by
  intro blocks
  induction blocks with
  | nil => intro hs _; rfl
  | cons b t ih =>
      intro hs h
      have hb := h b (List.mem_cons_self b t)
      show extractGo t (extractStep hs b) = hs
      rw [show extractStep hs b = hs by
        simp [extractStep, hb.1, hb.2]]
      exact ih hs (fun x hx => h x (List.mem_cons_of_mem b hx))

lemma nodup_pair_perm {a b : String} (hab : a ≠ b) :
    ∀ (l : List String), l.Nodup → (∀ x ∈ l, x = a ∨ x = b) →
      a ∈ l → b ∈ l → l.Perm [a, b] := by
  intro l
  match l with
  | [] =>
      intro _ _ ha _
      exact absurd ha (List.not_mem_nil a)
  | [x] =>
      intro _ _ ha hb
      have hax : a = x := by simpa using ha
      have hbx : b = x := by simpa using hb
      exact absurd (hax.trans hbx.symm) hab
  | x :: y :: rest =>
      intro hnd hsub _ _
      obtain ⟨hx1, hnd1⟩ := List.nodup_cons.mp hnd
      obtain ⟨hy1, _⟩ := List.nodup_cons.mp hnd1
      have hxy : x ≠ y := fun he => hx1 (by rw [he]; exact List.mem_cons_self y rest)
      have hxr : x ∉ rest := fun hr => hx1 (List.mem_cons_of_mem y hr)
      have hx := hsub x (List.mem_cons_self x (y :: rest))
      have hy := hsub y (List.mem_cons_of_mem x (List.mem_cons_self y rest))
      have hrest : rest = [] := by
        rw [List.eq_nil_iff_forall_not_mem]
        intro z hz
        have hzx : z ≠ x := fun he => hxr (by rw [← he]; exact hz)
        have hzy : z ≠ y := fun he => hy1 (by rw [← he]; exact hz)
        rcases hsub z (List.mem_cons_of_mem x (List.mem_cons_of_mem y hz)) with hza | hzb
        · rcases hx with hxa | hxb
          · exact hzx (hza.trans hxa.symm)
          · rcases hy with hya | hyb
            · exact hzy (hza.trans hya.symm)
            · exact hxy (hxb.trans hyb.symm)
        · rcases hx with hxa | hxb
          · rcases hy with hya | hyb
            · exact hxy (hxa.trans hya.symm)
            · exact hzy (hzb.trans hyb.symm)
          · exact hzx (hzb.trans hxb.symm)
      subst hrest
      rcases hx with hxa | hxb
      · have hyb : y = b := by
          rcases hy with hya | hyb
          · exact absurd (hxa.trans hya.symm) hxy
          · exact hyb
        rw [hxa, hyb]
      · have hya : y = a := by
          rcases hy with hya | hyb
          · exact hya
          · exact absurd (hxb.trans hyb.symm) hxy
        rw [hxb, hya]
        exact List.Perm.swap a b []

/-- C9: code generation over a workspace with no recognized top-level
handler blocks yields the empty mapping; unrecognized block types are
skipped silently by the loop; and a workspace containing both a
`sim_on_start` and a `sim_on_update` block yields exactly two entries,
keyed `onStart` and `onTick`. -/
theorem extract_handlers_spec :
    (∀ blocks : List Block,
      (∀ b ∈ blocks, b.btype ≠ "sim_on_start" ∧ b.btype ≠ "sim_on_update") →
      extractEventHandlers blocks = []) ∧
    (∀ (hs : List (String × String)) (b : Block),
      b.btype ≠ "sim_on_start" → b.btype ≠ "sim_on_update" →
      extractStep hs b = hs) ∧
    (∀ blocks : List Block,
      (∃ b ∈ blocks, b.btype = "sim_on_start") →
      (∃ b ∈ blocks, b.btype = "sim_on_update") →
      ((extractEventHandlers blocks).map Prod.fst).Perm ["onStart", "onTick"]) := by
  refine ⟨?_, ?_, ?_⟩
  · intro blocks h
    exact extractGo_unrecognized blocks [] h
  · intro hs b h1 h2
    simp [extractStep, h1, h2]
  · intro blocks hstart hupd
    unfold extractEventHandlers
    have hsub : ∀ x ∈ (extractGo blocks []).map Prod.fst,
        x = "onStart" ∨ x = "onTick" := by
      intro x hx
      rcases (extractGo_keys_mem blocks [] x).mp hx with hm | ⟨hk, _⟩ | ⟨hk, _⟩
      · simp at hm
      · exact Or.inl hk
      · exact Or.inr hk
    have hnd : ((extractGo blocks []).map Prod.fst).Nodup :=
      extractGo_keys_nodup blocks [] (by simp)
    have hmem1 : "onStart" ∈ (extractGo blocks []).map Prod.fst :=
      (extractGo_keys_mem blocks [] "onStart").mpr (Or.inr (Or.inl ⟨rfl, hstart⟩))
    have hmem2 : "onTick" ∈ (extractGo blocks []).map Prod.fst :=
      (extractGo_keys_mem blocks [] "onTick").mpr (Or.inr (Or.inr ⟨rfl, hupd⟩))
    exact nodup_pair_perm (by decide) _ hnd hsub hmem1 hmem2

/-- Witness for `extract_handlers_spec`: a lone unrecognized block
yields the empty mapping, and a workspace with an unrecognized block,
one `sim_on_start` and one `sim_on_update` yields exactly the keys
`onStart` and `onTick`. -/
theorem extract_handlers_spec_witness :
    extractEventHandlers [⟨"controls_repeat", none⟩] = [] ∧
    ((extractEventHandlers [⟨"controls_if", none⟩, ⟨"sim_on_start", some "A"⟩,
        ⟨"sim_on_update", some "B"⟩]).map Prod.fst).Perm ["onStart", "onTick"] :=
  ⟨extract_handlers_spec.1 [⟨"controls_repeat", none⟩] (by decide),
   extract_handlers_spec.2.2
     [⟨"controls_if", none⟩, ⟨"sim_on_start", some "A"⟩, ⟨"sim_on_update", some "B"⟩]
     (by decide) (by decide)⟩

/-! ## Unloaded handler names -/

lemma workerInit_lookup_none :
    ∀ (src : List (String × String)) (compile : String → Except String WHandler)
      (name : String), src.lookup name = none →
      (workerInit src compile).lookup name = none := by
  intro src compile name
  induction src with
  | nil => intro _; rfl
  | cons p t ih =>
      obtain ⟨k, c⟩ := p
      intro h
      simp only [List.lookup] at h
      by_cases hb : (name == k) = true
      · rw [hb] at h
        simp at h
      · have hb' : (name == k) = false := by
          simpa using hb
        rw [hb'] at h
        simp only [workerInit, List.map_cons, List.lookup, hb']
        simpa only [workerInit] using ih h

/-- C10 counterexample: a handler name whose source failed to compile
is bound by worker init to a stub function that rethrows the compile
error, so a `run` for that name gets an `error` response back — it is
not silently ignored. -/
theorem compile_failed_handler_responds :
    workerDispatchRun
        (workerInit [("h", "][")] (fun _ => .error "SyntaxError: Unexpected token"))
        "h" 1
      = some (.error 1 "SyntaxError: Unexpected token") ∧
    workerDispatchRun
        (workerInit [("h", "][")] (fun _ => .error "SyntaxError: Unexpected token"))
        "h" 1 ≠ none := by
  refine ⟨rfl, ?_⟩
  intro hc
  rw [show workerDispatchRun
        (workerInit [("h", "][")] (fun _ => .error "SyntaxError: Unexpected token"))
        "h" 1
      = some (.error 1 "SyntaxError: Unexpected token") from rfl] at hc
  cases hc

/-- C10 (amended): calling `run(name)` for a handler name absent from the
loaded handler map gets no `result`/`error` message at all — the
worker dispatcher silently ignores the request — and no message
carrying a different id can settle it, so the promise settles only
when the watchdog fires, which rejects the call (with the
`Terminated` error, see `sandbox.ts`) and tears the bridge down.  A
name whose source merely failed to compile is instead bound to a
throwing stub and answers promptly with an `error` response. -/
theorem unloaded_handler_times_out (src : List (String × String))
    (compile : String → Except String WHandler) (name : String) (reqId : ℕ)
    (s : BridgeState) (m : Msg)
    (hname : src.lookup name = none)
    (hmem : reqId ∈ s.pending) (hnone : s.outcome reqId = none)
    (hm : msgId m ≠ some reqId) :
    workerDispatchRun (workerInit src compile) name reqId = none ∧
    (handleMessage s m).outcome reqId = none ∧
    (watchdogFire s reqId).outcome reqId = some (.rejected "Sandbox terminated") ∧
    (watchdogFire s reqId).workerAlive = false := by
  refine ⟨?_, ?_, watchdogFire_outcome_mem hmem hnone, watchdogFire_workerAlive s reqId⟩
  · unfold workerDispatchRun
    rw [workerInit_lookup_none src compile name hname]
  · rw [handle_outcome_ne (fun id hid he => hm (by rw [he] at hid; exact hid))]
    exact hnone

/-- Witness for `unloaded_handler_times_out`: only `onStart` is loaded,
`run('onTick')` (request 1) is silently ignored, a `ready` message
settles nothing, and the watchdog then rejects request 1 and kills the
worker. -/
theorem unloaded_handler_times_out_witness :
    workerDispatchRun (workerInit [("onStart", "go()")] (fun _ => .ok (.ok .null)))
        "onTick" 1 = none ∧
    (watchdogFire ⟨true, [1], [], 2⟩ 1).outcome 1
        = some (.rejected "Sandbox terminated") :=
  ⟨(unloaded_handler_times_out [("onStart", "go()")] (fun _ => .ok (.ok .null))
      "onTick" 1 ⟨true, [1], [], 2⟩ .ready (by decide) (by decide) (by decide)
      (by decide)).1,
   (unloaded_handler_times_out [("onStart", "go()")] (fun _ => .ok (.ok .null))
      "onTick" 1 ⟨true, [1], [], 2⟩ .ready (by decide) (by decide) (by decide)
      (by decide)).2.2.1⟩

end Studio
